import Mathlib

/-!
Verification development for the tsuzuri event-sourcing runtime.

The definitions below are a shallow embedding of the Rust sources:
* tsuzuri/src/event_store.rs (snapshot-interval rule, store traits)
* tsuzuri/src/command/repository.rs (EventSourced repository: load and commit)
* tsuzuri/src/message.rs (Envelope and its equality)
* tsuzuri/src/versioned_aggregate.rs
* tsuzuri-dynamodb/src/store.rs, store/helper.rs, store/error.rs, store/key.rs
  (journal / snapshot / outbox / inverted-index writes, transaction bound,
  error mapping)
* tsuzuri-dynamodb/src/projection/event_type_router.rs and
  integration/event_type_router.rs (ProcessorBasedEventRouter.process_bytes)
* crates/tsuzuri/src/aggregate_id.rs (TypedId parsing and display)

Machine integers (Rust usize) are modelled as Nat; saturating_add is modelled
explicitly. Rust Result is modelled as Except; async is erased (all the
persistence operations are sequential state transformers on the store state).
-/

/-- Byte strings (Rust Vec of u8) are modelled as lists of naturals. -/
abbrev Bytes := List Nat

/-- Largest value of the 64-bit usize type. -/
def USIZE_MAX : Nat := 2 ^ 64 - 1

/-- Rust usize saturating_add, on the Nat model of usize. -/
def satAdd (a b : Nat) : Nat := min (a + b) USIZE_MAX

/-- Metadata maps (HashMap of String to String) are modelled as association
lists. -/
abbrev Metadata := List (String × String)

/-- Serialized domain event, from tsuzuri/src/domain_event.rs. -/
structure SerializedDomainEvent where
  id : String
  aggregate_id : String
  seq_nr : Nat
  aggregate_type : String
  event_type : String
  payload : Bytes
  metadata : Metadata
deriving DecidableEq, Repr

/-- Serialized integration event, from tsuzuri/src/integration_event.rs. -/
structure SerializedIntegrationEvent where
  id : String
  aggregate_id : String
  aggregate_type : String
  event_type : String
  payload : Bytes
deriving DecidableEq, Repr

/-- Persisted snapshot, from tsuzuri/src/snapshot.rs. -/
structure PersistedSnapshot where
  aggregate_type : String
  aggregate_id : String
  aggregate : Bytes
  seq_nr : Nat
  version : Nat
deriving DecidableEq, Repr

/-- Sequence selector for event streaming, from tsuzuri/src/event.rs. -/
inductive SequenceSelect where
  | All : SequenceSelect
  | From : Nat → SequenceSelect
deriving DecidableEq, Repr

/-- Message envelope, from tsuzuri/src/message.rs: a message plus a
string-to-string metadata map. -/
structure EnvelopeM (T : Type) where
  message : T
  metadata : Metadata
deriving DecidableEq, Repr

/-- HashMap insert on the association-list model: replace the value under an
existing key, otherwise append the new pair. -/
def insertMeta (m : Metadata) (k v : String) : Metadata :=
  if m.any (fun kv => kv.1 == k) then
    m.map (fun kv => if kv.1 == k then (k, v) else kv)
  else m ++ [(k, v)]

/-- Envelope.with_metadata from tsuzuri/src/message.rs lines 24-27: insert the
pair into the metadata map and return the envelope. -/
def with_metadata {T : Type} (e : EnvelopeM T) (k v : String) : EnvelopeM T :=
  { e with metadata := insertMeta e.metadata k v }

/-- Envelope.from from tsuzuri/src/message.rs lines 36-46: wrap a message with
empty metadata. -/
def envelopeFrom {T : Type} (message : T) : EnvelopeM T :=
  { message := message, metadata := [] }

/-- PartialEq for Envelope, from tsuzuri/src/message.rs lines 48-55: equality
compares only the wrapped message. -/
def envelopeEq {T : Type} [DecidableEq T] (a b : EnvelopeM T) : Bool :=
  decide (a.message = b.message)

/-- Versioned aggregate, from tsuzuri/src/versioned_aggregate.rs: an aggregate
state plus snapshot version and highest applied sequence number. -/
structure VersionedAggregate (σ : Type) where
  aggregate : σ
  version : Nat
  seq_nr : Nat
deriving DecidableEq, Repr

/-- VersionedAggregate.from_snapshot (versioned_aggregate.rs lines 60-62). -/
def VersionedAggregate.from_snapshot {σ : Type} (aggregate : σ) (version seq_nr : Nat) :
    VersionedAggregate σ :=
  { aggregate := aggregate, version := version, seq_nr := seq_nr }

/-- VersionedAggregate.set_seq_nr (versioned_aggregate.rs lines 43-45). -/
def VersionedAggregate.setSeqNr {σ : Type} (va : VersionedAggregate σ) (n : Nat) :
    VersionedAggregate σ :=
  { va with seq_nr := n }

/-- The static data of an aggregate root implementation (the AggregateRoot
trait of tsuzuri/src/aggregate.rs together with the IntoIntegrationEvents
trait): state type, domain-event type, integration-event type, and the pure
functions the repository calls on them. -/
structure AggregateSpec (σ ε ι : Type) where
  TYPE : String
  init : String → σ
  idOf : σ → String
  apply : σ → ε → σ
  eventId : ε → String
  eventType : ε → String
  intoIntegrationEvents : ε → List ι
  ieId : ι → String
  ieType : ι → String

/-- VersionedAggregate.apply (versioned_aggregate.rs lines 52-54): delegate to
the aggregate apply function. -/
def VersionedAggregate.applyEvent {σ ε ι : Type} (A : AggregateSpec σ ε ι)
    (va : VersionedAggregate σ) (e : ε) : VersionedAggregate σ :=
  { va with aggregate := A.apply va.aggregate e }

/-- Serde errors are modelled as message strings (tsuzuri SerdeError). -/
abbrev SerdeErr := String

/-- The Serde trait of tsuzuri/src/serde.rs: a symmetric pair of fallible
serialize and deserialize functions. -/
structure SerdeM (α : Type) where
  serialize : α → Except SerdeErr Bytes
  deserialize : Bytes → Except SerdeErr α

/-- PersistenceError from tsuzuri persist.rs (boxed payloads modelled as
message strings). -/
inductive PersistenceError where
  | OptimisticLockError : PersistenceError
  | ConnectionError : String → PersistenceError
  | DeserializationError : String → PersistenceError
  | UnknownError : String → PersistenceError
deriving DecidableEq, Repr

/-- Conversion of SerdeError into PersistenceError
(crates/tsuzuri/src/persist.rs lines 65-77): every variant becomes
DeserializationError. -/
def persistenceErrorOfSerde (e : SerdeErr) : PersistenceError :=
  PersistenceError.DeserializationError e

/-- DynamoAggregateError from tsuzuri-dynamodb/src/store/error.rs. -/
inductive DynamoAggregateError where
  | OptimisticLock : DynamoAggregateError
  | TransactionListTooLong : Nat → DynamoAggregateError
  | MissingAttribute : String → DynamoAggregateError
  | BuilderError : String → DynamoAggregateError
  | UnknownError : String → DynamoAggregateError
deriving DecidableEq, Repr

/-- From DynamoAggregateError for PersistenceError
(tsuzuri-dynamodb/src/store/error.rs lines 77-93): OptimisticLock maps to
OptimisticLockError and everything else maps to UnknownError (carrying the
display message of the wrapped error). -/
def persistenceErrorOfDynamo (e : DynamoAggregateError) : PersistenceError :=
  match e with
  | DynamoAggregateError.OptimisticLock => PersistenceError.OptimisticLockError
  | DynamoAggregateError.TransactionListTooLong n =>
      PersistenceError.UnknownError
        ("Too many operations: " ++ toString n ++
          ", DynamoDb supports only up to 25 operations per transactions")
  | DynamoAggregateError.MissingAttribute s =>
      PersistenceError.UnknownError ("missing attribute: " ++ s)
  | DynamoAggregateError.BuilderError s =>
      PersistenceError.UnknownError ("builder error: " ++ s)
  | DynamoAggregateError.UnknownError s => PersistenceError.UnknownError s

/-- resolve_sort_key from tsuzuri-dynamodb/src/store/key.rs lines 13-15. -/
def resolve_sort_key (name id : String) (seq_nr : Nat) : String :=
  name ++ "-" ++ id ++ "-" ++ toString seq_nr

/-- Snapshot table row as written by DynamoDB::update_snapshot
(store.rs lines 349-361): aid, seq_nr, version, aggregate_type, payload. -/
structure SnapshotRow where
  aid : String
  seq_nr : Nat
  version : Nat
  aggregate_type : String
  payload : Bytes
deriving DecidableEq, Repr

/-- Outbox table row as written by
DynamoDB::build_integration_event_put_transactions (store.rs lines 245-256). -/
structure OutboxRow where
  skey : String
  aid : String
  aggregate_type : String
  event_type : String
  payload : Bytes
  status : String
  attempts : Nat
deriving DecidableEq, Repr

/-- State of the four DynamoDB tables the store writes to. -/
structure DynamoState where
  journal : List SerializedDomainEvent
  outbox : List OutboxRow
  snapshots : List SnapshotRow
  inverted : List (String × String)
deriving DecidableEq, Repr

/-- Empty store. -/
def DynamoState.empty : DynamoState :=
  { journal := [], outbox := [], snapshots := [], inverted := [] }

/-- Sort key of a journal row (store.rs lines 191-195). -/
def journalSkey (e : SerializedDomainEvent) : String :=
  resolve_sort_key e.aggregate_type e.aggregate_id e.seq_nr

/-- Sort key of a snapshot row (store.rs lines 338-342). -/
def snapSkey (r : SnapshotRow) : String :=
  resolve_sort_key r.aggregate_type r.aid r.seq_nr

/-- One item of a TransactWriteItems request, as built by the store: a
conditional journal put, an unconditional outbox put, a conditional snapshot
put carrying the expected previous version, a conditional inverted-index put,
or an unconditional inverted-index delete. -/
inductive WriteItem where
  | putJournal : SerializedDomainEvent → WriteItem
  | putOutbox : OutboxRow → WriteItem
  | putSnapshot : SnapshotRow → Nat → WriteItem
  | putInverted : String → String → WriteItem
  | deleteInverted : String → String → WriteItem
deriving DecidableEq, Repr

/-- Modelled from the spec: evaluation of the condition expression a write
item carries, against the table state, per the documented conditional-write
contract (spec sections 4.6 and 4.7). The journal put carries
attribute_not_exists(seq_nr) (store.rs line 216), the snapshot put carries
attribute_not_exists(version) OR version = expected (store.rs line 358), the
inverted-index put carries attribute_not_exists(pkey) AND
attribute_not_exists(skey) (store.rs line 402); outbox puts and
inverted-index deletes are unconditional. -/
def checkCondition (st : DynamoState) : WriteItem → Bool
  | WriteItem.putJournal e => st.journal.all (fun r => journalSkey r != journalSkey e)
  | WriteItem.putOutbox _ => true
  | WriteItem.putSnapshot row expected =>
      match st.snapshots.find? (fun r => snapSkey r == snapSkey row) with
      | none => true
      | some r => r.version == expected
  | WriteItem.putInverted kw aid =>
      st.inverted.all (fun p => !(p.1 == kw && p.2 == aid))
  | WriteItem.deleteInverted _ _ => true

/-- Modelled from the spec: the effect of one write item on the table state;
a put replaces the item stored under the same key, a delete removes it. -/
def applyItem (st : DynamoState) : WriteItem → DynamoState
  | WriteItem.putJournal e =>
      { st with journal :=
          st.journal.filter (fun r => journalSkey r != journalSkey e) ++ [e] }
  | WriteItem.putOutbox row =>
      { st with outbox := st.outbox.filter (fun r => r.skey != row.skey) ++ [row] }
  | WriteItem.putSnapshot row _ =>
      { st with snapshots :=
          st.snapshots.filter (fun r => snapSkey r != snapSkey row) ++ [row] }
  | WriteItem.putInverted kw aid => { st with inverted := st.inverted ++ [(kw, aid)] }
  | WriteItem.deleteInverted kw aid =>
      { st with inverted := st.inverted.filter (fun p => !(p.1 == kw && p.2 == aid)) }

/-- Service-level failure of a TransactWriteItems call: either a cancellation
carrying the per-item reason codes, or any other transport error. -/
inductive TransactServiceError where
  | transactionCanceled : List String → TransactServiceError
  | other : String → TransactServiceError
deriving DecidableEq, Repr

/-- Modelled from the spec: the atomic TransactWriteItems call (spec section
4.6, persist is atomic: either all rows materialise or none). Every condition
is checked against the pre-state; if all pass, every item is applied,
otherwise nothing is applied and the call is cancelled with
ConditionalCheckFailed recorded for each failing item. -/
def transactWriteItems (st : DynamoState) (items : List WriteItem) :
    Except TransactServiceError DynamoState :=
  if items.all (checkCondition st) then Except.ok (items.foldl applyItem st)
  else
    Except.error (TransactServiceError.transactionCanceled
      (items.map (fun it => if checkCondition st it then "None" else "ConditionalCheckFailed")))

/-- From SdkError of TransactWriteItemsError for DynamoAggregateError
(store/error.rs lines 46-59): a cancellation with some reason code
ConditionalCheckFailed becomes OptimisticLock; everything else becomes
UnknownError. -/
def dynamoErrorOfTransact (e : TransactServiceError) : DynamoAggregateError :=
  match e with
  | TransactServiceError.transactionCanceled reasons =>
      if reasons.any (fun r => r == "ConditionalCheckFailed") then
        DynamoAggregateError.OptimisticLock
      else DynamoAggregateError.UnknownError "transaction canceled"
  | TransactServiceError.other msg => DynamoAggregateError.UnknownError msg

/-- commit_transactions from tsuzuri-dynamodb/src/store/helper.rs lines 85-99:
reject more than 25 items before contacting the service, otherwise submit the
whole list as one TransactWriteItems call. -/
def commit_transactions (st : DynamoState) (transactions : List WriteItem) :
    Except DynamoAggregateError DynamoState :=
  let transaction_len := transactions.length
  if transaction_len > 25 then
    Except.error (DynamoAggregateError.TransactionListTooLong transaction_len)
  else (transactWriteItems st transactions).mapError dynamoErrorOfTransact

/-- build_domain_event_put_transactions (store.rs lines 177-225): one
conditional journal put per event; the returned counter ends at the last
event sequence number (0 when the slice is empty). -/
def build_domain_event_put_transactions (domain_events : List SerializedDomainEvent) :
    List WriteItem × Nat :=
  domain_events.foldl
    (fun acc event => (acc.1 ++ [WriteItem.putJournal event], event.seq_nr)) ([], 0)

/-- build_integration_event_put_transactions (store.rs lines 227-261): one
unconditional outbox put per integration event, with status PENDING and zero
attempts. -/
def build_integration_event_put_transactions
    (integration_events : List SerializedIntegrationEvent) : List WriteItem :=
  integration_events.map (fun event =>
    WriteItem.putOutbox
      { skey := event.id, aid := event.aggregate_id,
        aggregate_type := event.aggregate_type, event_type := event.event_type,
        payload := event.payload, status := "PENDING", attempts := 0 })

/-- build_all_event_transactions (store.rs lines 158-175). -/
def build_all_event_transactions (domain_events : List SerializedDomainEvent)
    (integration_events : List SerializedIntegrationEvent) : List WriteItem × Nat :=
  let built := build_domain_event_put_transactions domain_events
  if integration_events.isEmpty then built
  else (built.1 ++ build_integration_event_put_transactions integration_events, built.2)

/-- insert_events (store.rs lines 263-280): return immediately when there are
no domain events, otherwise build all puts and commit them as one
transaction. -/
def insert_events (st : DynamoState) (domain_events : List SerializedDomainEvent)
    (integration_events : List SerializedIntegrationEvent) :
    Except DynamoAggregateError DynamoState :=
  if domain_events.isEmpty then Except.ok st
  else commit_transactions st (build_all_event_transactions domain_events integration_events).1

/-- update_snapshot (store.rs lines 318-367): build the event puts, then add a
snapshot put whose stored seq_nr is the running counter returned by the event
builder (the last domain event sequence number) and whose condition expects
the previous version. -/
def update_snapshot (st : DynamoState) (snapshot : PersistedSnapshot)
    (domain_events : List SerializedDomainEvent)
    (integration_events : List SerializedIntegrationEvent) :
    Except DynamoAggregateError DynamoState :=
  let expected_snapshot := snapshot.version - 1
  let built := build_all_event_transactions domain_events integration_events
  let row : SnapshotRow :=
    { aid := snapshot.aggregate_id, seq_nr := built.2, version := snapshot.version,
      aggregate_type := snapshot.aggregate_type, payload := snapshot.aggregate }
  commit_transactions st (built.1 ++ [WriteItem.putSnapshot row expected_snapshot])

/-- Persister::persist for DynamoDB (store.rs lines 544-561): with no snapshot
go through insert_events, with a snapshot go through update_snapshot; map the
store error into PersistenceError. -/
def persist (st : DynamoState) (domain_events : List SerializedDomainEvent)
    (integration_events : List SerializedIntegrationEvent)
    (snapshot_update : Option PersistedSnapshot) :
    Except PersistenceError DynamoState :=
  match snapshot_update with
  | none => (insert_events st domain_events integration_events).mapError persistenceErrorOfDynamo
  | some snapshot =>
      (update_snapshot st snapshot domain_events integration_events).mapError
        persistenceErrorOfDynamo

/-- Insertion of a journal row into a list kept ascending by seq_nr. -/
def sortBySeqInsert (e : SerializedDomainEvent) :
    List SerializedDomainEvent → List SerializedDomainEvent
  | [] => [e]
  | x :: xs => if e.seq_nr ≤ x.seq_nr then e :: x :: xs else x :: sortBySeqInsert e xs

/-- Sorting of journal rows by seq_nr ascending, the order in which the
aid-index query of get_stream returns them (numeric sort key). -/
def sortBySeq (l : List SerializedDomainEvent) : List SerializedDomainEvent :=
  l.foldr sortBySeqInsert []

/-- get_stream (store.rs lines 369-392): query the journal aid-index for rows
with the given aggregate id and seq_nr greater than or equal to the bound,
returned in ascending seq_nr order. -/
def get_stream (st : DynamoState) (aggregate_id : String) (seq_nr : Nat) :
    List SerializedDomainEvent :=
  sortBySeq (st.journal.filter
    (fun e => e.aggregate_id == aggregate_id && seq_nr ≤ e.seq_nr))

/-- AggregateEventStreamer::stream_events for DynamoDB (store.rs lines
517-535): All maps to the bound 1 and From maps to its bound. -/
def stream_events (st : DynamoState) (id : String) (select : SequenceSelect) :
    List SerializedDomainEvent :=
  get_stream st id
    (match select with
     | SequenceSelect.All => 1
     | SequenceSelect.From seq => seq)

/-- Latest snapshot row in query order: the get_snapshot query (store.rs lines
444-477) returns the rows for the aggregate sorted ascending by skey and takes
the last one. -/
def lastSnapshotRow (rows : List SnapshotRow) : Option SnapshotRow :=
  rows.foldl
    (fun acc r =>
      match acc with
      | none => some r
      | some m => if snapSkey m ≤ snapSkey r then some r else some m)
    none

/-- get_snapshot (store.rs lines 444-477): query the snapshot table for the
aggregate, take the last row, and rebuild a PersistedSnapshot from its
payload, seq_nr and version columns. -/
def get_snapshot (st : DynamoState) (TYPE id : String) : Option PersistedSnapshot :=
  match lastSnapshotRow
      (st.snapshots.filter (fun r => r.aggregate_type == TYPE && r.aid == id)) with
  | none => none
  | some row =>
      some { aggregate_type := TYPE, aggregate_id := id, aggregate := row.payload,
             seq_nr := row.seq_nr, version := row.version }

/-- insert_inverted_index (store.rs lines 394-409): a single conditional put
of the (keyword, aggregate_id) pair. -/
def insert_inverted_index (st : DynamoState) (aggregate_id keyword : String) :
    Except DynamoAggregateError DynamoState :=
  commit_transactions st [WriteItem.putInverted keyword aggregate_id]

/-- query_inverted_index (store.rs lines 411-426): all skey values stored
under the keyword. -/
def query_inverted_index (st : DynamoState) (keyword : String) : List String :=
  (st.inverted.filter (fun p => p.1 == keyword)).map (fun p => p.2)

/-- remove_inverted_index (store.rs lines 428-442): a single unconditional
delete of the (keyword, aggregate_id) pair. -/
def remove_inverted_index (st : DynamoState) (aggregate_id keyword : String) :
    Except DynamoAggregateError DynamoState :=
  commit_transactions st [WriteItem.deleteInverted keyword aggregate_id]

/-- InvertedIndexCommiter::commit for DynamoDB (store.rs lines 577-583). -/
def invertedIndexCommit (st : DynamoState) (aggregate_id keyword : String) :
    Except PersistenceError DynamoState :=
  (insert_inverted_index st aggregate_id keyword).mapError persistenceErrorOfDynamo

/-- InvertedIndexRemover::remove for DynamoDB (store.rs lines 585-591). -/
def invertedIndexRemove (st : DynamoState) (aggregate_id keyword : String) :
    Except PersistenceError DynamoState :=
  (remove_inverted_index st aggregate_id keyword).mapError persistenceErrorOfDynamo

/-- AggregateIdsLoader::get_aggregate_ids for DynamoDB (store.rs lines
569-575). -/
def get_aggregate_ids (st : DynamoState) (keyword : String) :
    Except PersistenceError (List String) :=
  Except.ok (query_inverted_index st keyword)

/-- commit_snapshot_with_addl_events from tsuzuri/src/event_store.rs lines
20-32, with the snapshot interval (self.snapshot_interval) passed explicitly
as max_size. Nat subtraction coincides with the Rust usize subtraction here
because both subtractions are guarded. -/
def commit_snapshot_with_addl_events (max_size current_sequence num_events : Nat) : Nat :=
  let next_snapshot_at := max_size - current_sequence % max_size
  if num_events < next_snapshot_at then 0
  else
    let addl_events_after_next_snapshot := num_events - next_snapshot_at
    next_snapshot_at +
      (addl_events_after_next_snapshot - addl_events_after_next_snapshot % max_size)

/-- Serialization loop over the derived integration events, the map-collect
of prepare_events (repository.rs lines 129-141). -/
def serializeIntegrationEvents {σ ε ι : Type} (A : AggregateSpec σ ε ι)
    (integrationEventSerde : SerdeM ι) (aggregate_id : String) :
    List ι → Except PersistenceError (List SerializedIntegrationEvent)
  | [] => Except.ok []
  | integration_event :: rest =>
      match integrationEventSerde.serialize integration_event with
      | Except.error e => Except.error (persistenceErrorOfSerde e)
      | Except.ok p =>
          match serializeIntegrationEvents A integrationEventSerde aggregate_id rest with
          | Except.error e => Except.error e
          | Except.ok tail =>
              Except.ok
                ({ id := A.ieId integration_event, aggregate_id := aggregate_id,
                   aggregate_type := A.TYPE, event_type := A.ieType integration_event,
                   payload := p } :: tail)

/-- prepare_events from tsuzuri/src/command/repository.rs lines 109-143
(continued): the one serialized domain event at seq_nr saturating_add 1
together with the serialized integration events. -/
def prepare_events {σ ε ι : Type} (A : AggregateSpec σ ε ι) (domainEventSerde : SerdeM ε)
    (integrationEventSerde : SerdeM ι) (versioned_aggregate : VersionedAggregate σ)
    (event : EnvelopeM ε) :
    Except PersistenceError (SerializedDomainEvent × List SerializedIntegrationEvent) :=
  let domain_event := event.message
  let aggregate_id := A.idOf versioned_aggregate.aggregate
  let seq_nr := versioned_aggregate.seq_nr
  match domainEventSerde.serialize domain_event with
  | Except.error e => Except.error (persistenceErrorOfSerde e)
  | Except.ok payload =>
      match serializeIntegrationEvents A integrationEventSerde aggregate_id
          (A.intoIntegrationEvents domain_event) with
      | Except.error e => Except.error e
      | Except.ok serialized_integration_events =>
          Except.ok
            ({ id := A.eventId domain_event, aggregate_id := aggregate_id,
               seq_nr := satAdd seq_nr 1, aggregate_type := A.TYPE,
               event_type := A.eventType domain_event, payload := payload,
               metadata := event.metadata }, serialized_integration_events)

/-- prepare_snapshot_if_needed from tsuzuri/src/command/repository.rs lines
145-172: ask the snapshot-interval rule with num_events fixed at 1; when it
answers 0 skip the snapshot, otherwise serialize the current aggregate state
and bump the version with saturating_add. -/
def prepare_snapshot_if_needed {σ ε ι : Type} (A : AggregateSpec σ ε ι)
    (aggregateSerde : SerdeM σ) (snapshot_interval : Nat)
    (versioned_aggregate : VersionedAggregate σ) :
    Except PersistenceError (Option PersistedSnapshot) :=
  let aggregate := versioned_aggregate.aggregate
  let version := versioned_aggregate.version
  let seq_nr := versioned_aggregate.seq_nr
  let num_events := 1
  let commit_snapshot_to_event :=
    commit_snapshot_with_addl_events snapshot_interval seq_nr num_events
  if commit_snapshot_to_event = 0 then
    Except.ok none
  else
    match aggregateSerde.serialize aggregate with
    | Except.error e => Except.error (persistenceErrorOfSerde e)
    | Except.ok payload =>
        Except.ok (some
          { aggregate_type := A.TYPE, aggregate_id := A.idOf aggregate,
            aggregate := payload, seq_nr := seq_nr, version := satAdd version 1 })

/-- Replay fold of load_aggregate (repository.rs lines 201-213): for each
persisted event deserialize the payload, set the sequence number, and apply
the event. -/
def replayFold {σ ε ι : Type} (A : AggregateSpec σ ε ι) (domainEventSerde : SerdeM ε) :
    VersionedAggregate σ → List SerializedDomainEvent →
    Except SerdeErr (VersionedAggregate σ)
  | va, [] => Except.ok va
  | va, persisted :: rest =>
      match domainEventSerde.deserialize persisted.payload with
      | Except.error err => Except.error err
      | Except.ok event =>
          replayFold A domainEventSerde
            ((va.setSeqNr persisted.seq_nr).applyEvent A event) rest

/-- load_aggregate from tsuzuri/src/command/repository.rs lines 184-216
composed with the DynamoDB store: read the latest snapshot (or start from
init with version 0 and seq_nr 0), then stream events From the snapshot
seq_nr and fold them into the versioned aggregate; replay failures surface as
UnknownError. -/
def load_aggregate {σ ε ι : Type} (A : AggregateSpec σ ε ι) (aggregateSerde : SerdeM σ)
    (domainEventSerde : SerdeM ε) (st : DynamoState) (id : String) :
    Except PersistenceError (VersionedAggregate σ) :=
  match
    (match get_snapshot st A.TYPE id with
     | some snapshot =>
         match aggregateSerde.deserialize snapshot.aggregate with
         | Except.ok a => Except.ok (a, snapshot.version, snapshot.seq_nr)
         | Except.error e => Except.error (persistenceErrorOfSerde e)
     | none => Except.ok (A.init id, 0, 0) :
       Except PersistenceError (σ × Nat × Nat)) with
  | Except.error e => Except.error e
  | Except.ok start =>
      match replayFold A domainEventSerde
          (VersionedAggregate.from_snapshot start.1 start.2.1 start.2.2)
          (stream_events st id (SequenceSelect.From start.2.2)) with
      | Except.ok ctx => Except.ok ctx
      | Except.error err =>
          Except.error (PersistenceError.UnknownError
            ("Failed to replay events for aggregate " ++ id ++ ": " ++ err))

/-- commit from tsuzuri/src/command/repository.rs lines 291-307: prepare the
serialized event and integration events, prepare the snapshot if one is due,
and persist all of it in one store call. -/
def repoCommit {σ ε ι : Type} (A : AggregateSpec σ ε ι) (aggregateSerde : SerdeM σ)
    (domainEventSerde : SerdeM ε) (integrationEventSerde : SerdeM ι)
    (snapshot_interval : Nat) (versioned_aggregate : VersionedAggregate σ)
    (event : EnvelopeM ε) (st : DynamoState) : Except PersistenceError DynamoState :=
  match prepare_events A domainEventSerde integrationEventSerde
      versioned_aggregate event with
  | Except.error e => Except.error e
  | Except.ok prepared =>
      match prepare_snapshot_if_needed A aggregateSerde
          snapshot_interval versioned_aggregate with
      | Except.error e => Except.error e
      | Except.ok serialized_snapshot =>
          persist st [prepared.1] prepared.2 serialized_snapshot

/-- Erased processor entry of the ProcessorBasedEventRouter
(projection/event_type_router.rs): process_bytes over payload and metadata
bytes. The integration-side router (integration/event_type_router.rs) is the
same code without the metadata argument. -/
abbrev ProcFun := Bytes → Bytes → Except String Unit

/-- Rust str::starts_with: the pattern is a leading segment of the string,
modelled on the character lists underlying the two strings. -/
def startsWithM (s pat : String) : Bool :=
  pat.data.isPrefixOf s.data

/-- ProcessorBasedEventRouter::process_bytes
(tsuzuri-dynamodb/src/projection/event_type_router.rs lines 98-112 and
integration/event_type_router.rs lines 100-114): first try the exact route,
then the first registered key that event_name starts with, otherwise succeed
without invoking anything. The route map is an association list with the
HashMap key-uniqueness invariant stated at the theorems. -/
def process_bytes (routes : List (String × ProcFun)) (event_name : String)
    (payload metadata : Bytes) : Except String Unit :=
  match routes.lookup event_name with
  | some processor => processor payload metadata
  | none =>
      match routes.find? (fun kv => startsWithM event_name kv.1) with
      | some kv => kv.2 payload metadata
      | none => Except.ok ()

/-- Modulus of the 128-bit ulid payload. -/
def ULID_MOD : Nat := 2 ^ 128

/-- Crockford base32 alphabet used by the ulid crate. -/
def crockfordAlphabet : List Char := "0123456789ABCDEFGHJKMNPQRSTVWXYZ".toList

/-- Character of one base32 digit. -/
def encodeChar (d : Nat) : Char := crockfordAlphabet.getD d '0'

/-- Errors of ulid string decoding (ulid crate DecodeError). -/
inductive UlidDecodeErr where
  | InvalidLength : UlidDecodeErr
  | InvalidChar : UlidDecodeErr
deriving DecidableEq, Repr

/-- Value of one base32 character per the ulid crate lookup table: digits and
the Crockford letters, upper or lower case. -/
def decodeCharE (c : Char) : Except UlidDecodeErr Nat :=
  match crockfordAlphabet.indexOf? c.toUpper with
  | some i => Except.ok i
  | none => Except.error UlidDecodeErr.InvalidChar

/-- Little-endian base32 digits of a natural, padded to the given length. -/
def toBase32 : Nat → Nat → List Nat
  | 0, _ => []
  | k + 1, n => n % 32 :: toBase32 k (n / 32)

/-- Ulid Display: the 26-character Crockford base32 form, most significant
digit first. -/
def ulidEncode (u : Nat) : List Char := (toBase32 26 u).reverse.map encodeChar

/-- Ulid::from_string (ulid crate base32 decode): exactly 26 characters, each
looked up in the alphabet, shifted into a 128-bit accumulator (shifting wraps
modulo 2 to the 128). -/
def ulidFromString (s : List Char) : Except UlidDecodeErr Nat :=
  if s.length ≠ 26 then Except.error UlidDecodeErr.InvalidLength
  else do
    let vals ← s.mapM decodeCharE
    pure (vals.foldl (fun a d => (a * 32 + d) % ULID_MOD) 0)

/-- Errors of typed-id parsing, from crates/tsuzuri/src/aggregate_id.rs lines
10-16. -/
inductive AggregateIdError where
  | Empty : AggregateIdError
  | Invalid : AggregateIdError
deriving DecidableEq, Repr

/-- Typed identifier: the ulid payload, the type tag being a parameter of the
operations (crates/tsuzuri/src/aggregate_id.rs TypedId). Equality and
ordering are by the ulid alone. -/
structure TypedIdM where
  ulid : Nat
deriving DecidableEq, Repr

/-- Display for TypedId (aggregate_id.rs lines 65-69): the tag, a dash, and
the ulid in its 26-character form. Strings are modelled as character lists. -/
def typedIdToString (PREFIX : List Char) (id : TypedIdM) : List Char :=
  PREFIX ++ '-' :: ulidEncode id.ulid

/-- FromStr for TypedId (aggregate_id.rs lines 71-85): reject the empty
string with Empty, strip the leading tag-dash pattern when present, and
decode the remainder as a ulid, any decode failure becoming Invalid. -/
def typedIdFromStr (PREFIX : List Char) (s : List Char) :
    Except AggregateIdError TypedIdM :=
  if s.isEmpty then Except.error AggregateIdError.Empty
  else
    let pat := PREFIX ++ ['-']
    let ulid_string := if pat.isPrefixOf s then s.drop pat.length else s
    match ulidFromString ulid_string with
    | Except.ok u => Except.ok { ulid := u }
    | Except.error _ => Except.error AggregateIdError.Invalid

/-- TypedId::from_string (aggregate_id.rs lines 45-48), the inherent helper:
decode the whole string as a bare ulid, any failure becoming Invalid. -/
def typedIdFromString (s : List Char) : Except AggregateIdError TypedIdM :=
  match ulidFromString s with
  | Except.ok u => Except.ok { ulid := u }
  | Except.error _ => Except.error AggregateIdError.Invalid

/-- C2 counterexample: with interval 10, current sequence 8 and 12 new
events, the snapshot-interval function returns 12, not 10 as claimed. -/
theorem C2_counterexample :
    commit_snapshot_with_addl_events 10 8 12 ≠ 10 ∧
    commit_snapshot_with_addl_events 10 8 12 = 12 := by
  decide

/-- C2 (amended): with interval 10 the snapshot-interval function maps
(0,5) to 0, (0,10) to 10, (5,5) to 5, (8,12) to 12 and (10,10) to 10; in
general it returns 0 exactly when num_events is below the distance to the
next multiple of the interval, and a positive offset otherwise. -/
theorem C2_snapshot_interval_rule :
    commit_snapshot_with_addl_events 10 0 5 = 0 ∧
    commit_snapshot_with_addl_events 10 0 10 = 10 ∧
    commit_snapshot_with_addl_events 10 5 5 = 5 ∧
    commit_snapshot_with_addl_events 10 8 12 = 12 ∧
    commit_snapshot_with_addl_events 10 10 10 = 10 ∧
    (∀ s n : Nat, n < 10 - s % 10 → commit_snapshot_with_addl_events 10 s n = 0) ∧
    (∀ s n : Nat, 10 - s % 10 ≤ n → 0 < commit_snapshot_with_addl_events 10 s n) := by
  refine ⟨by decide, by decide, by decide, by decide, by decide, ?_, ?_⟩
  · intro s n h
    simp only [commit_snapshot_with_addl_events]
    rw [if_pos h]
  · intro s n h
    have hm : s % 10 < 10 := Nat.mod_lt s (by norm_num)
    simp only [commit_snapshot_with_addl_events]
    rw [if_neg (by omega)]
    omega

/-- Witness for the hypotheses of the C2 theorem at concrete inputs. -/
theorem C2_snapshot_interval_rule_witness :
    commit_snapshot_with_addl_events 10 3 2 = 0 ∧
    0 < commit_snapshot_with_addl_events 10 9 1 :=
  ⟨C2_snapshot_interval_rule.2.2.2.2.2.1 3 2 (by decide),
   C2_snapshot_interval_rule.2.2.2.2.2.2 9 1 (by decide)⟩

/-- C7: Envelope equality considers only the wrapped message; adding metadata
with with_metadata never changes equality, and any two envelopes with equal
messages are equal regardless of their metadata maps. -/
theorem C7_envelope_eq_ignores_metadata {T : Type} [DecidableEq T] :
    (∀ (e : EnvelopeM T) (k v : String), envelopeEq (with_metadata e k v) e = true) ∧
    (∀ a b : EnvelopeM T, a.message = b.message → envelopeEq a b = true) := by
  constructor
  · intro e k v
    simp [envelopeEq, with_metadata]
  · intro a b h
    simp [envelopeEq, h]

/-- Witness for the C7 theorem at concrete envelopes. -/
theorem C7_envelope_eq_witness :
    envelopeEq (with_metadata (envelopeFrom (3 : Nat)) "k" "v") (envelopeFrom 3) = true ∧
    envelopeEq ({ message := 5, metadata := [("a", "b")] } : EnvelopeM Nat)
      { message := 5, metadata := [] } = true :=
  ⟨(C7_envelope_eq_ignores_metadata.1 (envelopeFrom 3) "k" "v"),
   (C7_envelope_eq_ignores_metadata.2 { message := 5, metadata := [("a", "b")] }
      { message := 5, metadata := [] } rfl)⟩

/-- C10: persist with an empty domain-event slice and no snapshot returns Ok
and leaves the store untouched; in particular any integration events passed
alongside are discarded, because insert_events returns early when there are
no domain events. -/
theorem C10_persist_empty_events_noop :
    ∀ (integration_events : List SerializedIntegrationEvent) (st : DynamoState),
      persist st [] integration_events none = Except.ok st := by
  intro ies st
  simp [persist, insert_events, Except.mapError]

/-- C9: a prepared transaction of more than 25 items is rejected before
reaching the service with TransactionListTooLong, which PersistenceError maps
to the fatal UnknownError and never to OptimisticLockError; at 25 or fewer
items the whole list is submitted as one atomic TransactWriteItems call. -/
theorem C9_transaction_bound :
    (∀ (st : DynamoState) (items : List WriteItem), 25 < items.length →
        commit_transactions st items =
          Except.error (DynamoAggregateError.TransactionListTooLong items.length) ∧
        persistenceErrorOfDynamo (DynamoAggregateError.TransactionListTooLong items.length) =
          PersistenceError.UnknownError
            ("Too many operations: " ++ toString items.length ++
              ", DynamoDb supports only up to 25 operations per transactions") ∧
        persistenceErrorOfDynamo (DynamoAggregateError.TransactionListTooLong items.length) ≠
          PersistenceError.OptimisticLockError) ∧
    (∀ (st : DynamoState) (items : List WriteItem), items.length ≤ 25 →
        items.all (checkCondition st) = true →
        commit_transactions st items = Except.ok (items.foldl applyItem st)) := by
  constructor
  · intro st items h
    refine ⟨?_, rfl, by simp [persistenceErrorOfDynamo]⟩
    simp only [commit_transactions]
    rw [if_pos h]
  · intro st items h hcond
    simp only [commit_transactions]
    rw [if_neg (by omega)]
    simp [transactWriteItems, hcond, Except.mapError]

/-- Witness for the hypotheses of the C9 theorem: a 26-item transaction is
rejected, a 1-item transaction is applied. -/
theorem C9_transaction_bound_witness :
    commit_transactions DynamoState.empty
        (List.replicate 26 (WriteItem.deleteInverted "k" "a")) =
      Except.error (DynamoAggregateError.TransactionListTooLong 26) ∧
    commit_transactions DynamoState.empty [WriteItem.deleteInverted "k" "a"] =
      Except.ok ([WriteItem.deleteInverted "k" "a"].foldl applyItem DynamoState.empty) := by
  constructor
  · have h := (C9_transaction_bound.1 DynamoState.empty
      (List.replicate 26 (WriteItem.deleteInverted "k" "a")) (by simp)).1
    simpa using h
  · exact C9_transaction_bound.2 DynamoState.empty [WriteItem.deleteInverted "k" "a"]
      (by simp) (by decide)

/-- C8: committing an already-present (aggregate_id, keyword) pair into the
inverted index fails with OptimisticLockError through the conditional-check
mapping; removing a pair always succeeds (removal of an absent pair
included), leaving the table without the pair; and querying a keyword that
was never committed yields the empty list. -/
theorem C8_inverted_index_semantics :
    (∀ (st : DynamoState) (aid kw : String), (kw, aid) ∈ st.inverted →
        invertedIndexCommit st aid kw = Except.error PersistenceError.OptimisticLockError) ∧
    (∀ (st : DynamoState) (aid kw : String),
        invertedIndexRemove st aid kw =
          Except.ok { st with inverted :=
            st.inverted.filter (fun p => !(p.1 == kw && p.2 == aid)) }) ∧
    (∀ (st : DynamoState) (kw : String), (∀ p ∈ st.inverted, p.1 ≠ kw) →
        get_aggregate_ids st kw = Except.ok []) := by
  refine ⟨?_, ?_, ?_⟩
  · intro st aid kw hmem
    have hall : st.inverted.all (fun p => !(p.1 == kw && p.2 == aid)) = false := by
      rw [List.all_eq_false]
      exact ⟨(kw, aid), hmem, by simp⟩
    have hc : checkCondition st (WriteItem.putInverted kw aid) = false := hall
    simp [invertedIndexCommit, insert_inverted_index, commit_transactions,
      transactWriteItems, hc, dynamoErrorOfTransact,
      persistenceErrorOfDynamo, Except.mapError]
  · intro st aid kw
    simp [invertedIndexRemove, remove_inverted_index, commit_transactions,
      transactWriteItems, checkCondition, applyItem, Except.mapError]
  · intro st kw hnone
    have : st.inverted.filter (fun p => p.1 == kw) = [] := by
      rw [List.filter_eq_nil_iff]
      intro p hp
      simpa using hnone p hp
    simp [get_aggregate_ids, query_inverted_index, this]

/-- Witness for the hypotheses of the C8 theorem at a one-row table. -/
theorem C8_inverted_index_witness :
    invertedIndexCommit
        { DynamoState.empty with inverted := [("tag:x", "a1")] } "a1" "tag:x" =
      Except.error PersistenceError.OptimisticLockError ∧
    get_aggregate_ids { DynamoState.empty with inverted := [("tag:x", "a1")] } "tag:y" =
      Except.ok [] :=
  ⟨C8_inverted_index_semantics.1
      { DynamoState.empty with inverted := [("tag:x", "a1")] } "a1" "tag:x" (by simp),
   C8_inverted_index_semantics.2.2
      { DynamoState.empty with inverted := [("tag:x", "a1")] } "tag:y"
      (by intro p hp; simp at hp; subst hp; decide)⟩

/-- Association-list lookup finds the stored value of a present key when the
keys are distinct (the HashMap invariant of the route map). -/
theorem lookup_eq_some_of_mem_nodup {β : Type} (k : String) (v : β)
    (l : List (String × β)) (hmem : (k, v) ∈ l) (hnd : (l.map Prod.fst).Nodup) :
    l.lookup k = some v := by
  induction l with
  | nil => cases hmem
  | cons hd tl ih =>
      rcases List.mem_cons.1 hmem with heq | htl
      · subst heq
        simp [List.lookup]
      · have hk : hd.1 ≠ k := by
          intro heq
          have hkin : k ∈ tl.map Prod.fst := List.mem_map.2 ⟨(k, v), htl, rfl⟩
          rw [List.map_cons, List.nodup_cons] at hnd
          exact hnd.1 (heq ▸ hkin)
        have hbeq : (k == hd.1) = false := by simp [Ne.symm hk]
        simp only [List.lookup, hbeq]
        exact ih htl (by rw [List.map_cons, List.nodup_cons] at hnd; exact hnd.2)

/-- C5: the router invokes the processor registered under exactly the event
type when one exists; otherwise, when some registered key is a string pretext
of the event type, one such processor is invoked with the payload; and when
no key matches exactly or by leading match, the call succeeds without
invoking any processor. -/
theorem C5_router_dispatch :
    (∀ (routes : List (String × ProcFun)) (event_name : String)
        (payload metadata : Bytes) (p : ProcFun),
        (routes.map Prod.fst).Nodup → (event_name, p) ∈ routes →
        process_bytes routes event_name payload metadata = p payload metadata) ∧
    (∀ (routes : List (String × ProcFun)) (event_name : String)
        (payload metadata : Bytes),
        routes.lookup event_name = none →
        (∃ kv ∈ routes, startsWithM event_name kv.1) →
        ∃ kv ∈ routes, startsWithM event_name kv.1 ∧
          process_bytes routes event_name payload metadata = kv.2 payload metadata) ∧
    (∀ (routes : List (String × ProcFun)) (event_name : String)
        (payload metadata : Bytes),
        routes.lookup event_name = none →
        (∀ kv ∈ routes, ¬ (startsWithM event_name kv.1 = true)) →
        process_bytes routes event_name payload metadata = Except.ok ()) := by
  refine ⟨?_, ?_, ?_⟩
  · intro routes event_name payload metadata p hnd hmem
    unfold process_bytes
    rw [lookup_eq_some_of_mem_nodup event_name p routes hmem hnd]
  · intro routes event_name payload metadata hnone hex
    unfold process_bytes
    rw [hnone]
    cases hfind : routes.find? (fun kv => startsWithM event_name kv.1) with
    | none =>
        rcases hex with ⟨kv, hmem, hsw⟩
        rw [List.find?_eq_none] at hfind
        exact absurd hsw (by simpa using hfind kv hmem)
    | some kv =>
        exact ⟨kv, List.mem_of_find?_eq_some hfind,
          by simpa using List.find?_some hfind, rfl⟩
  · intro routes event_name payload metadata hnone hno
    unfold process_bytes
    rw [hnone]
    rw [List.find?_eq_none.2 (by intro kv hmem; simpa using hno kv hmem)]

/-- Processor that records its invocation through its result. -/
def procInvoked : ProcFun := fun _ _ => Except.error "invoked"

/-- Witness for the hypotheses of the C5 theorem: exact dispatch, dispatch by
leading match, and the no-match no-op, at concrete route tables. -/
theorem C5_router_dispatch_witness :
    process_bytes [("Order", procInvoked)] "Order" [7] [] = procInvoked [7] [] ∧
    (∃ kv ∈ [("ProjectDomainEvent", procInvoked)],
        startsWithM "ProjectDomainEventBodyChanged" kv.1 ∧
        process_bytes [("ProjectDomainEvent", procInvoked)]
          "ProjectDomainEventBodyChanged" [5] [] = kv.2 [5] []) ∧
    process_bytes [("Order", procInvoked)] "UnrelatedEvent" [] [] = Except.ok () :=
  ⟨C5_router_dispatch.1 [("Order", procInvoked)] "Order" [7] [] procInvoked
      (by simp) (by simp),
   C5_router_dispatch.2.1 [("ProjectDomainEvent", procInvoked)]
      "ProjectDomainEventBodyChanged" [5] [] rfl
      ⟨("ProjectDomainEvent", procInvoked), by simp, by decide⟩,
   C5_router_dispatch.2.2 [("Order", procInvoked)] "UnrelatedEvent" [] [] rfl
      (by intro kv hmem; rw [List.mem_singleton] at hmem; subst hmem; decide)⟩

deriving instance DecidableEq for Except

/-- Decoding inverts encoding on single base32 digits. -/
theorem decodeCharE_encodeChar : ∀ d : Nat, d < 32 →
    decodeCharE (encodeChar d) = Except.ok d := by
  decide

/-- Every digit produced by toBase32 is below 32. -/
theorem toBase32_lt : ∀ (k n : Nat), ∀ d ∈ toBase32 k n, d < 32 := by
  intro k
  induction k with
  | zero => intro n d h; cases h
  | succ k ih =>
      intro n d h
      rcases List.mem_cons.1 h with heq | htl
      · subst heq; exact Nat.mod_lt n (by norm_num)
      · exact ih (n / 32) d htl

/-- toBase32 produces exactly the requested number of digits. -/
theorem toBase32_length : ∀ (k n : Nat), (toBase32 k n).length = k := by
  intro k
  induction k with
  | zero => intro n; rfl
  | succ k ih => intro n; simp [toBase32, ih]

/-- Folding the most-significant-first digit list into an accumulator
computes the encoded value modulo 32 to the digit count. -/
theorem foldl_toBase32_reverse : ∀ (k n a : Nat),
    (toBase32 k n).reverse.foldl (fun acc d => acc * 32 + d) a =
      a * 32 ^ k + n % 32 ^ k := by
  intro k
  induction k with
  | zero => intro n a; simp [toBase32, Nat.mod_one]
  | succ k ih =>
      intro n a
      have hsplit : n % 32 ^ (k + 1) = n % 32 + 32 * (n / 32 % 32 ^ k) := by
        have := Nat.mod_mul_right_div_self n 32 (32 ^ k)
        calc n % 32 ^ (k + 1) = n % (32 * 32 ^ k) := by ring_nf
          _ = n % 32 + 32 * (n / 32 % 32 ^ k) := Nat.mod_mul
      simp only [toBase32, List.reverse_cons, List.foldl_append, List.foldl_cons,
        List.foldl_nil, ih]
      rw [hsplit]
      ring

/-- Folding with the 128-bit wrap at each step agrees with wrapping the plain
fold once at the end. -/
theorem foldl_mod_ulid : ∀ (l : List Nat) (a : Nat),
    l.foldl (fun acc d => (acc * 32 + d) % ULID_MOD) (a % ULID_MOD) =
      (l.foldl (fun acc d => acc * 32 + d) a) % ULID_MOD := by
  intro l
  induction l with
  | nil => intro a; rfl
  | cons d t ih =>
      intro a
      have hstep : (a % ULID_MOD * 32 + d) % ULID_MOD = (a * 32 + d) % ULID_MOD :=
        ((Nat.mod_modEq a ULID_MOD).mul_right 32).add_right d
      simp only [List.foldl_cons, hstep]
      exact ih (a * 32 + d)

/-- Decoding a list of encoded digits recovers the digits. -/
theorem mapM_decode_encode : ∀ (ds : List Nat), (∀ d ∈ ds, d < 32) →
    (ds.map encodeChar).mapM decodeCharE = Except.ok ds := by
  intro ds
  induction ds with
  | nil => intro h; rfl
  | cons d t ih =>
      intro h
      rw [List.map_cons, List.mapM_cons, decodeCharE_encodeChar d (h d (List.mem_cons_self d t)),
        ih (fun x hx => h x (List.mem_cons_of_mem d hx))]
      rfl

/-- Ulid string decoding inverts encoding on every 128-bit value. -/
theorem ulidFromString_ulidEncode (u : Nat) (h : u < ULID_MOD) :
    ulidFromString (ulidEncode u) = Except.ok u := by
  have hlen : (ulidEncode u).length = 26 := by
    simp [ulidEncode, toBase32_length]
  have hdig : ∀ d ∈ (toBase32 26 u).reverse, d < 32 := by
    intro d hd
    exact toBase32_lt 26 u d (List.mem_reverse.1 hd)
  unfold ulidFromString
  rw [if_neg (by rw [hlen]; trivial)]
  unfold ulidEncode
  rw [mapM_decode_encode _ hdig]
  have hfold := foldl_mod_ulid (toBase32 26 u).reverse 0
  rw [Nat.zero_mod] at hfold
  have hval : (toBase32 26 u).reverse.foldl (fun acc d => acc * 32 + d) 0 = u := by
    have h130 : u < 32 ^ 26 := by
      calc u < 2 ^ 128 := h
        _ ≤ 32 ^ 26 := by norm_num
    rw [foldl_toBase32_reverse 26 u 0, Nat.zero_mul, Nat.zero_add,
      Nat.mod_eq_of_lt h130]
  show Except.ok ((toBase32 26 u).reverse.foldl (fun acc d => (acc * 32 + d) % ULID_MOD) 0)
      = Except.ok u
  rw [hfold, hval, Nat.mod_eq_of_lt h]

/-- A list is a leading segment of itself followed by anything. -/
theorem isPrefixOf_append {α : Type} [BEq α] [LawfulBEq α] :
    ∀ (l r : List α), l.isPrefixOf (l ++ r) = true := by
  intro l r
  induction l with
  | nil => simp
  | cons a as ih => simp [List.isPrefixOf, ih]

/-- No base32 digit encodes to the dash character. -/
theorem encodeChar_ne_dash : ∀ d : Nat, encodeChar d ≠ '-' := by
  intro d
  rcases Nat.lt_or_ge d 32 with hlt | hge
  · revert hlt
    revert d
    decide
  · unfold encodeChar
    rw [List.getD_eq_default _ _ (by rw [show crockfordAlphabet.length = 32 from rfl]; exact hge)]
    decide

/-- The dash character never occurs in an encoded ulid. -/
theorem dash_not_mem_ulidEncode (u : Nat) : '-' ∉ ulidEncode u := by
  intro hmem
  rcases List.mem_map.1 hmem with ⟨d, _, hd⟩
  exact encodeChar_ne_dash d hd

/-- The tag-dash pattern is never a leading segment of a bare encoded ulid,
whatever the tag. -/
theorem pat_not_isPrefixOf_ulidEncode (PREFIX : List Char) (u : Nat) :
    (PREFIX ++ ['-']).isPrefixOf (ulidEncode u) = false := by
  by_contra hne
  have htrue : (PREFIX ++ ['-']).isPrefixOf (ulidEncode u) = true := by
    revert hne
    cases (PREFIX ++ ['-']).isPrefixOf (ulidEncode u) <;> simp
  have hpre : (PREFIX ++ ['-']) <+: ulidEncode u := by
    rwa [List.isPrefixOf_iff_prefix] at htrue
  have hdash : '-' ∈ ulidEncode u := hpre.subset (by simp)
  exact dash_not_mem_ulidEncode u hdash

/-- An encoded ulid is never the empty list. -/
theorem ulidEncode_isEmpty (u : Nat) : (ulidEncode u).isEmpty = false := by
  have hne : ulidEncode u ≠ [] := by
    intro hnil
    have := congrArg List.length hnil
    simp [ulidEncode, toBase32_length] at this
  cases henc : ulidEncode u with
  | nil => exact absurd henc hne
  | cons a t => rfl

/-- C6: parsing a typed identifier round-trips through its display form (the
parse operation of the AggregateId interface, FromStr for TypedId, whose
errors are Empty and Invalid); it also accepts the bare 26-character ulid
form, and rejects the empty string with the Empty error. -/
theorem C6_typed_id_round_trip (PREFIX : List Char) (id : TypedIdM)
    (h : id.ulid < ULID_MOD) :
    typedIdFromStr PREFIX (typedIdToString PREFIX id) = Except.ok id ∧
    typedIdFromStr PREFIX (ulidEncode id.ulid) = Except.ok id ∧
    typedIdFromStr PREFIX [] = Except.error AggregateIdError.Empty := by
  refine ⟨?_, ?_, rfl⟩
  · have hs : typedIdToString PREFIX id = (PREFIX ++ ['-']) ++ ulidEncode id.ulid := by
      simp [typedIdToString]
    have hempty : ((PREFIX ++ ['-']) ++ ulidEncode id.ulid).isEmpty = false := by
      cases hp : (PREFIX ++ ['-']) ++ ulidEncode id.ulid with
      | nil => simp at hp
      | cons a t => rfl
    have hstep : (PREFIX ++ ['-']).isPrefixOf ((PREFIX ++ ['-']) ++ ulidEncode id.ulid) = true :=
      isPrefixOf_append _ _
    rw [hs]
    simp only [typedIdFromStr, hempty, hstep, Bool.false_eq_true, if_false, if_true,
      List.drop_left, ulidFromString_ulidEncode id.ulid h]
  · have hfalse : (PREFIX ++ ['-']).isPrefixOf (ulidEncode id.ulid) = false :=
      pat_not_isPrefixOf_ulidEncode PREFIX id.ulid
    simp only [typedIdFromStr, ulidEncode_isEmpty, hfalse, Bool.false_eq_true, if_false,
      ulidFromString_ulidEncode id.ulid h]

/-- Witness for the hypothesis of the C6 theorem at the tag pj and the zero
ulid. -/
theorem C6_typed_id_round_trip_witness :
    typedIdFromStr "pj".toList (typedIdToString "pj".toList { ulid := 0 }) =
      Except.ok { ulid := 0 } ∧
    typedIdFromStr "pj".toList (ulidEncode 0) = Except.ok { ulid := 0 } ∧
    typedIdFromStr "pj".toList [] = Except.error AggregateIdError.Empty :=
  C6_typed_id_round_trip "pj".toList { ulid := 0 } (by norm_num [ULID_MOD])

/-- Wording of claim C1 (spec invariant 3): identical to load_aggregate
except that replay starts strictly after the snapshot sequence number, at
From (snapshot.seq_nr + 1). Kept for comparison with the embedded code. -/
def load_aggregate_spec {σ ε ι : Type} (A : AggregateSpec σ ε ι) (aggregateSerde : SerdeM σ)
    (domainEventSerde : SerdeM ε) (st : DynamoState) (id : String) :
    Except PersistenceError (VersionedAggregate σ) :=
  match
    (match get_snapshot st A.TYPE id with
     | some snapshot =>
         match aggregateSerde.deserialize snapshot.aggregate with
         | Except.ok a => Except.ok (a, snapshot.version, snapshot.seq_nr)
         | Except.error e => Except.error (persistenceErrorOfSerde e)
     | none => Except.ok (A.init id, 0, 0) :
       Except PersistenceError (σ × Nat × Nat)) with
  | Except.error e => Except.error e
  | Except.ok start =>
      match replayFold A domainEventSerde
          (VersionedAggregate.from_snapshot start.1 start.2.1 start.2.2)
          (stream_events st id (SequenceSelect.From (start.2.2 + 1))) with
      | Except.ok ctx => Except.ok ctx
      | Except.error err =>
          Except.error (PersistenceError.UnknownError
            ("Failed to replay events for aggregate " ++ id ++ ": " ++ err))

/-- Concrete aggregate instance used for counterexamples and witnesses: the
state is the list of applied event values, an event is a natural number, no
integration events are derived. -/
def listAgg : AggregateSpec (List Nat) Nat Nat :=
  { TYPE := "Acc", init := fun _ => [], idOf := fun _ => "A",
    apply := fun s e => s ++ [e],
    eventId := fun e => "evt-" ++ toString e, eventType := fun _ => "AccEvent",
    intoIntegrationEvents := fun _ => [], ieId := fun e => toString e,
    ieType := fun _ => "AccIntegration" }

/-- Event codec of the concrete instance: an event value is its singleton
byte list. -/
def natSerde : SerdeM Nat :=
  { serialize := fun n => Except.ok [n],
    deserialize := fun b =>
      match b with
      | [n] => Except.ok n
      | _ => Except.error "bad event payload" }

/-- Aggregate codec of the concrete instance: the state is its own byte
list. -/
def listSerde : SerdeM (List Nat) :=
  { serialize := fun s => Except.ok s, deserialize := fun b => Except.ok b }

/-- Journal row of the concrete instance at the given seq_nr and value. -/
def accEvent (n v : Nat) : SerializedDomainEvent :=
  { id := "evt-" ++ toString v, aggregate_id := "A", seq_nr := n,
    aggregate_type := "Acc", event_type := "AccEvent", payload := [v],
    metadata := [] }

/-- Store state of the C1 counterexample: three journal rows at seq 1, 2, 3
and a snapshot row at seq_nr 2 whose payload is the state reflecting the
events up to and including seq 2. -/
def c1State : DynamoState :=
  { journal := [accEvent 1 10, accEvent 2 20, accEvent 3 30], outbox := [],
    snapshots := [{ aid := "A", seq_nr := 2, version := 1,
                    aggregate_type := "Acc", payload := [10, 20] }],
    inverted := [] }

/-- C1 counterexample: on a store with a snapshot at seq_nr 2 and journal
events at seq 1, 2, 3, load_aggregate replays the event at seq 2 again (the
stream is inclusive at the snapshot seq_nr), so its result differs from the
claimed replay of the events strictly after the snapshot seq_nr. -/
theorem C1_counterexample :
    load_aggregate listAgg listSerde natSerde c1State "A" =
      Except.ok { aggregate := [10, 20, 20, 30], version := 1, seq_nr := 3 } ∧
    load_aggregate_spec listAgg listSerde natSerde c1State "A" =
      Except.ok { aggregate := [10, 20, 30], version := 1, seq_nr := 3 } ∧
    load_aggregate listAgg listSerde natSerde c1State "A" ≠
      load_aggregate_spec listAgg listSerde natSerde c1State "A" := by
  refine ⟨by decide, by decide, by decide⟩

/-- Payloads of a list of persisted events decoded through the domain-event
codec, failing on the first undecodable payload as the replay fold does. -/
def decodedEvents {ε : Type} (s : SerdeM ε) :
    List SerializedDomainEvent → Except SerdeErr (List ε)
  | [] => Except.ok []
  | e :: t =>
      match s.deserialize e.payload with
      | Except.error err => Except.error err
      | Except.ok d =>
          match decodedEvents s t with
          | Except.error err => Except.error err
          | Except.ok rest => Except.ok (d :: rest)

/-- The replay fold splits into a state fold over the decoded events and the
seq_nr of the last replayed event. -/
theorem replayFold_ok {σ ε ι : Type} (A : AggregateSpec σ ε ι) (s : SerdeM ε) :
    ∀ (l : List SerializedDomainEvent) (va : VersionedAggregate σ) (ds : List ε),
      decodedEvents s l = Except.ok ds →
      replayFold A s va l = Except.ok
        { aggregate := ds.foldl A.apply va.aggregate,
          version := va.version,
          seq_nr := (l.map (fun e => e.seq_nr)).getLastD va.seq_nr } := by
  intro l
  induction l with
  | nil =>
      intro va ds h
      have hds : ds = [] := by
        rw [decodedEvents] at h
        exact (Except.ok.inj h).symm
      subst hds
      rfl
  | cons e t ih =>
      intro va ds h
      rw [decodedEvents] at h
      cases hd : s.deserialize e.payload with
      | error err => rw [hd] at h; cases h
      | ok d =>
          rw [hd] at h
          cases ht : decodedEvents s t with
          | error err => rw [ht] at h; cases h
          | ok rest =>
              rw [ht] at h
              have hds : ds = d :: rest := (Except.ok.inj h).symm
              subst hds
              show replayFold A s va (e :: t) = _
              rw [replayFold, hd]
              show replayFold A s ((va.setSeqNr e.seq_nr).applyEvent A d) t =
                Except.ok
                  { aggregate := (d :: rest).foldl A.apply va.aggregate,
                    version := va.version,
                    seq_nr := ((e :: t).map (fun x => x.seq_nr)).getLastD va.seq_nr }
              rw [ih ((va.setSeqNr e.seq_nr).applyEvent A d) rest ht]
              rw [List.map_cons, List.getLastD_cons, List.foldl_cons]
              rfl

/-- C1 (amended): for every aggregate with a stored snapshot, load_aggregate
returns the deserialized snapshot-embedded state with the journal events
whose seq_nr is greater than or equal to the snapshot seq_nr applied to it in
ascending seq_nr order (replay is inclusive at the snapshot seq_nr, From
(snapshot.seq_nr)), the resulting version being the snapshot version and the
resulting seq_nr the last replayed event seq_nr, or the snapshot seq_nr when
no such events exist. -/
theorem C1_load_aggregate_replays_inclusive {σ ε ι : Type} (A : AggregateSpec σ ε ι)
    (aggS : SerdeM σ) (evtS : SerdeM ε) (st : DynamoState) (id : String)
    (snapshot : PersistedSnapshot) (a0 : σ) (ds : List ε)
    (hsnap : get_snapshot st A.TYPE id = some snapshot)
    (hagg : aggS.deserialize snapshot.aggregate = Except.ok a0)
    (hds : decodedEvents evtS
        (stream_events st id (SequenceSelect.From snapshot.seq_nr)) = Except.ok ds) :
    load_aggregate A aggS evtS st id = Except.ok
      { aggregate := ds.foldl A.apply a0,
        version := snapshot.version,
        seq_nr := ((stream_events st id (SequenceSelect.From snapshot.seq_nr)).map
            (fun e => e.seq_nr)).getLastD snapshot.seq_nr } := by
  simp only [load_aggregate, hsnap, hagg]
  show (match replayFold A evtS
      (VersionedAggregate.from_snapshot a0 snapshot.version snapshot.seq_nr)
      (stream_events st id (SequenceSelect.From snapshot.seq_nr)) with
    | Except.ok ctx => Except.ok ctx
    | Except.error err =>
        Except.error (PersistenceError.UnknownError
          ("Failed to replay events for aggregate " ++ id ++ ": " ++ err))) = _
  rw [replayFold_ok A evtS (stream_events st id (SequenceSelect.From snapshot.seq_nr))
    (VersionedAggregate.from_snapshot a0 snapshot.version snapshot.seq_nr) ds hds]
  rfl

/-- Witness for the hypotheses of the amended C1 theorem at the concrete
counterexample store. -/
theorem C1_load_aggregate_witness :
    load_aggregate listAgg listSerde natSerde c1State "A" =
      Except.ok { aggregate := [10, 20, 20, 30], version := 1, seq_nr := 3 } :=
  C1_load_aggregate_replays_inclusive listAgg listSerde natSerde c1State "A"
    { aggregate_type := "Acc", aggregate_id := "A", aggregate := [10, 20],
      seq_nr := 2, version := 1 }
    [10, 20] [20, 30] rfl rfl rfl

/-- Saturating add of one is plain successor below the saturation bound. -/
theorem satAdd_one (a : Nat) (h : a < USIZE_MAX) : satAdd a 1 = a + 1 := by
  unfold satAdd
  exact Nat.min_eq_left h

/-- Inversion of a successful commit_transactions call: the item count was
within the bound, every condition held on the pre-state, and the result is
the fold of all items over it. -/
theorem commit_transactions_ok_inv (st : DynamoState) (items : List WriteItem)
    (st2 : DynamoState) (h : commit_transactions st items = Except.ok st2) :
    items.all (checkCondition st) = true ∧ st2 = items.foldl applyItem st := by
  by_cases hlen : items.length > 25
  · exfalso
    simp only [commit_transactions] at h
    rw [if_pos hlen] at h
    cases h
  · simp only [commit_transactions] at h
    rw [if_neg hlen] at h
    by_cases hcond : items.all (checkCondition st) = true
    · refine ⟨hcond, ?_⟩
      simp only [transactWriteItems] at h
      rw [if_pos hcond] at h
      simp only [Except.mapError] at h
      exact (Except.ok.inj h).symm
    · exfalso
      simp only [transactWriteItems] at h
      rw [if_neg hcond] at h
      simp only [Except.mapError] at h
      cases h

/-- Inversion of a successful prepare_events call: the domain-event payload
serialized, and the produced event is the record built at seq_nr
saturating_add 1. -/
theorem prepare_events_event {σ ε ι : Type} (A : AggregateSpec σ ε ι)
    (evtS : SerdeM ε) (ieS : SerdeM ι) (va : VersionedAggregate σ) (e : EnvelopeM ε)
    (sde : SerializedDomainEvent) (ies : List SerializedIntegrationEvent)
    (hprep : prepare_events A evtS ieS va e = Except.ok (sde, ies)) :
    ∃ payload, evtS.serialize e.message = Except.ok payload ∧
      sde = { id := A.eventId e.message, aggregate_id := A.idOf va.aggregate,
              seq_nr := satAdd va.seq_nr 1, aggregate_type := A.TYPE,
              event_type := A.eventType e.message, payload := payload,
              metadata := e.metadata } := by
  simp only [prepare_events] at hprep
  split at hprep
  · cases hprep
  · rename_i payload hser
    split at hprep
    · cases hprep
    · rename_i tail hint
      refine ⟨payload, hser, ?_⟩
      have := Except.ok.inj hprep
      exact (congrArg Prod.fst this).symm

/-- The single-event transaction build: one conditional journal put followed
by the outbox puts, the running counter ending at the event seq_nr. -/
theorem build_all_single (sde : SerializedDomainEvent)
    (ies : List SerializedIntegrationEvent) :
    build_all_event_transactions [sde] ies =
      (WriteItem.putJournal sde :: build_integration_event_put_transactions ies,
       sde.seq_nr) := by
  cases ies with
  | nil => rfl
  | cons i t =>
      simp [build_all_event_transactions, build_domain_event_put_transactions,
        List.isEmpty]

/-- Every built outbox item is an outbox put. -/
theorem build_integration_shape (ies : List SerializedIntegrationEvent) :
    ∀ it ∈ build_integration_event_put_transactions ies,
      ∃ row, it = WriteItem.putOutbox row := by
  intro it hit
  rcases List.mem_map.1 hit with ⟨ev, _, heq⟩
  exact ⟨_, heq.symm⟩

/-- Folding items that contain no journal put leaves the journal table
unchanged. -/
theorem foldl_applyItem_journal :
    ∀ (l : List WriteItem) (st : DynamoState),
      (∀ it ∈ l, ∀ ev, it ≠ WriteItem.putJournal ev) →
      (l.foldl applyItem st).journal = st.journal := by
  intro l
  induction l with
  | nil => intro st _; rfl
  | cons it t ih =>
      intro st h
      rw [List.foldl_cons]
      rw [ih (applyItem st it) (fun x hx => h x (List.mem_cons_of_mem it hx))]
      have hmem := List.mem_cons_self it t
      cases it with
      | putJournal ev => exact absurd rfl (h _ hmem ev)
      | putOutbox row => rfl
      | putSnapshot row n => rfl
      | putInverted kw aid => rfl
      | deleteInverted kw aid => rfl

/-- Folding items that contain no snapshot put leaves the snapshot table
unchanged. -/
theorem foldl_applyItem_snapshots :
    ∀ (l : List WriteItem) (st : DynamoState),
      (∀ it ∈ l, ∀ row n, it ≠ WriteItem.putSnapshot row n) →
      (l.foldl applyItem st).snapshots = st.snapshots := by
  intro l
  induction l with
  | nil => intro st _; rfl
  | cons it t ih =>
      intro st h
      rw [List.foldl_cons]
      rw [ih (applyItem st it) (fun x hx => h x (List.mem_cons_of_mem it hx))]
      have hmem := List.mem_cons_self it t
      cases it with
      | putJournal ev => rfl
      | putOutbox row => rfl
      | putSnapshot row n => exact absurd rfl (h _ hmem row n)
      | putInverted kw aid => rfl
      | deleteInverted kw aid => rfl

/-- Applying a journal put followed by any journal-put-free tail appends
exactly the one journal row, provided its condition held (no row with the
same sort key). -/
theorem journal_after_event_put (st : DynamoState) (sde : SerializedDomainEvent)
    (rest : List WriteItem)
    (hrest : ∀ it ∈ rest, ∀ ev, it ≠ WriteItem.putJournal ev)
    (hcond : checkCondition st (WriteItem.putJournal sde) = true) :
    ((WriteItem.putJournal sde :: rest).foldl applyItem st).journal =
      st.journal ++ [sde] := by
  rw [List.foldl_cons]
  rw [foldl_applyItem_journal rest _ hrest]
  show (st.journal.filter (fun r => journalSkey r != journalSkey sde) ++ [sde]) = _
  congr 1
  refine List.filter_eq_self.2 ?_
  exact fun r hr => List.all_eq_true.1 hcond r hr

/-- C4: a successful commit of a versioned aggregate at sequence s and
version v persists exactly one serialized domain event, with seq_nr s + 1,
appended to the journal; and when the snapshot-interval rule at (s, 1) is
positive, the prepared snapshot carries version v + 1 and the serialized
current aggregate state. -/
theorem C4_commit_one_event_and_snapshot {σ ε ι : Type} (A : AggregateSpec σ ε ι)
    (aggS : SerdeM σ) (evtS : SerdeM ε) (ieS : SerdeM ι) (W : Nat)
    (va : VersionedAggregate σ) (e : EnvelopeM ε) (st st2 : DynamoState)
    (sde : SerializedDomainEvent) (ies : List SerializedIntegrationEvent)
    (hseq : va.seq_nr < USIZE_MAX) (hver : va.version < USIZE_MAX)
    (hprep : prepare_events A evtS ieS va e = Except.ok (sde, ies))
    (hcommit : repoCommit A aggS evtS ieS W va e st = Except.ok st2) :
    sde.seq_nr = va.seq_nr + 1 ∧
    st2.journal = st.journal ++ [sde] ∧
    (0 < commit_snapshot_with_addl_events W va.seq_nr 1 →
      ∃ payload, aggS.serialize va.aggregate = Except.ok payload ∧
        prepare_snapshot_if_needed A aggS W va = Except.ok (some
          { aggregate_type := A.TYPE, aggregate_id := A.idOf va.aggregate,
            aggregate := payload, seq_nr := va.seq_nr,
            version := va.version + 1 })) := by
  rcases prepare_events_event A evtS ieS va e sde ies hprep with ⟨pl, hserE, hsde⟩
  have hseqeq : sde.seq_nr = va.seq_nr + 1 := by
    rw [hsde]
    exact satAdd_one va.seq_nr hseq
  simp only [repoCommit] at hcommit
  rw [hprep] at hcommit
  cases hps : prepare_snapshot_if_needed A aggS W va with
  | error e2 =>
      rw [hps] at hcommit
      have hfalse : (Except.error e2 : Except PersistenceError DynamoState) =
          Except.ok st2 := hcommit
      cases hfalse
  | ok snapOpt =>
      rw [hps] at hcommit
      have hp : persist st [sde] ies snapOpt = Except.ok st2 := hcommit
      have h3 : 0 < commit_snapshot_with_addl_events W va.seq_nr 1 →
          ∃ payload, aggS.serialize va.aggregate = Except.ok payload ∧
            (Except.ok snapOpt : Except PersistenceError (Option PersistedSnapshot)) =
              Except.ok (some
                { aggregate_type := A.TYPE, aggregate_id := A.idOf va.aggregate,
                  aggregate := payload, seq_nr := va.seq_nr,
                  version := va.version + 1 }) := by
        intro hrule
        have hne : commit_snapshot_with_addl_events W va.seq_nr 1 ≠ 0 :=
          Nat.pos_iff_ne_zero.1 hrule
        have hps2 := hps
        simp only [prepare_snapshot_if_needed] at hps2
        rw [if_neg hne] at hps2
        cases hser2 : aggS.serialize va.aggregate with
        | error err => rw [hser2] at hps2; cases hps2
        | ok payload =>
            rw [hser2] at hps2
            refine ⟨payload, rfl, ?_⟩
            rw [← hps2, satAdd_one va.version hver]
      refine ⟨hseqeq, ?_, h3⟩
      cases snapOpt with
      | none =>
          have hp2 : (insert_events st [sde] ies).mapError persistenceErrorOfDynamo =
              Except.ok st2 := hp
          cases hie : insert_events st [sde] ies with
          | error err =>
              rw [hie] at hp2
              simp only [Except.mapError] at hp2
              cases hp2
          | ok st3 =>
              rw [hie] at hp2
              simp only [Except.mapError] at hp2
              have hst3 : st3 = st2 := Except.ok.inj hp2
              subst hst3
              simp only [insert_events, List.isEmpty, build_all_single] at hie
              rcases commit_transactions_ok_inv _ _ _ hie with ⟨hconds, hfold⟩
              rw [hfold]
              refine journal_after_event_put st sde _ ?_ ?_
              · intro it hit ev
                rcases build_integration_shape ies it hit with ⟨row, heq⟩
                subst heq
                simp
              · rw [List.all_cons, Bool.and_eq_true] at hconds
                exact hconds.1
      | some snap =>
          have hp2 : (update_snapshot st snap [sde] ies).mapError persistenceErrorOfDynamo =
              Except.ok st2 := hp
          cases hu : update_snapshot st snap [sde] ies with
          | error err =>
              rw [hu] at hp2
              simp only [Except.mapError] at hp2
              cases hp2
          | ok st3 =>
              rw [hu] at hp2
              simp only [Except.mapError] at hp2
              have hst3 : st3 = st2 := Except.ok.inj hp2
              subst hst3
              simp only [update_snapshot, build_all_single, List.cons_append] at hu
              rcases commit_transactions_ok_inv _ _ _ hu with ⟨hconds, hfold⟩
              rw [hfold]
              refine journal_after_event_put st sde _ ?_ ?_
              · intro it hit ev
                rcases List.mem_append.1 hit with hout | hsnapit
                · rcases build_integration_shape ies it hout with ⟨row, heq⟩
                  subst heq
                  simp
                · rw [List.mem_singleton] at hsnapit
                  subst hsnapit
                  simp
              · rw [List.all_cons, Bool.and_eq_true] at hconds
                exact hconds.1

/-- Journal row produced by the C4 witness commit. -/
def c4Event : SerializedDomainEvent :=
  { id := "evt-5", aggregate_id := "A", seq_nr := 10, aggregate_type := "Acc",
    event_type := "AccEvent", payload := [5], metadata := [] }

/-- Snapshot row produced by the C4 witness commit. -/
def c4SnapRow : SnapshotRow :=
  { aid := "A", seq_nr := 10, version := 1, aggregate_type := "Acc", payload := [1, 2] }

/-- Store state after the C4 witness commit. -/
def c4State : DynamoState :=
  { journal := [c4Event], outbox := [], snapshots := [c4SnapRow], inverted := [] }

/-- Witness for the hypotheses of the C4 theorem: a commit at sequence 9 and
version 0 with interval 10, against the empty store. -/
theorem C4_commit_witness :
    c4Event.seq_nr = 9 + 1 ∧
    c4State.journal = DynamoState.empty.journal ++ [c4Event] ∧
    (0 < commit_snapshot_with_addl_events 10 9 1 →
      ∃ payload, listSerde.serialize [1, 2] = Except.ok payload ∧
        prepare_snapshot_if_needed listAgg listSerde 10 ⟨[1, 2], 0, 9⟩ =
          Except.ok (some
            { aggregate_type := "Acc", aggregate_id := "A",
              aggregate := payload, seq_nr := 9, version := 0 + 1 })) :=
  C4_commit_one_event_and_snapshot listAgg listSerde natSerde natSerde 10
    ⟨[1, 2], 0, 9⟩ (envelopeFrom 5) DynamoState.empty c4State c4Event []
    (by decide) (by decide) (by decide) (by decide)

/-- C3 (amended): every snapshot row persisted by a successful commit stores
the seq_nr of the domain event committed in the same transaction (the
versioned aggregate seq_nr saturating_add 1), while its payload is the
serialized aggregate state from before that event; the payload therefore
reflects exactly the events with seq_nr up to stored seq_nr minus 1, and not
the event at the stored seq_nr. -/
theorem C3_snapshot_stores_next_seq_with_prior_state {σ ε ι : Type}
    (A : AggregateSpec σ ε ι) (aggS : SerdeM σ) (evtS : SerdeM ε) (ieS : SerdeM ι)
    (W : Nat) (va : VersionedAggregate σ) (e : EnvelopeM ε) (st st2 : DynamoState)
    (payload : Bytes)
    (hser : aggS.serialize va.aggregate = Except.ok payload)
    (hrt : aggS.deserialize payload = Except.ok va.aggregate)
    (hdue : commit_snapshot_with_addl_events W va.seq_nr 1 ≠ 0)
    (hcommit : repoCommit A aggS evtS ieS W va e st = Except.ok st2) :
    ∃ row : SnapshotRow,
      st2.snapshots.getLast? = some row ∧
      row.seq_nr = satAdd va.seq_nr 1 ∧
      row.payload = payload ∧
      aggS.deserialize row.payload = Except.ok va.aggregate := by
  simp only [repoCommit] at hcommit
  cases hpe : prepare_events A evtS ieS va e with
  | error e2 =>
      rw [hpe] at hcommit
      have hfalse : (Except.error e2 : Except PersistenceError DynamoState) =
          Except.ok st2 := hcommit
      cases hfalse
  | ok prepared =>
      obtain ⟨sde, ies⟩ := prepared
      rcases prepare_events_event A evtS ieS va e sde ies hpe with ⟨pl, hserE, hsde⟩
      have hps : prepare_snapshot_if_needed A aggS W va = Except.ok (some
          { aggregate_type := A.TYPE, aggregate_id := A.idOf va.aggregate,
            aggregate := payload, seq_nr := va.seq_nr,
            version := satAdd va.version 1 }) := by
        simp only [prepare_snapshot_if_needed]
        rw [if_neg hdue, hser]
      rw [hpe, hps] at hcommit
      have hp : persist st [sde] ies (some
          { aggregate_type := A.TYPE, aggregate_id := A.idOf va.aggregate,
            aggregate := payload, seq_nr := va.seq_nr,
            version := satAdd va.version 1 }) = Except.ok st2 := hcommit
      have hp2 : (update_snapshot st
          { aggregate_type := A.TYPE, aggregate_id := A.idOf va.aggregate,
            aggregate := payload, seq_nr := va.seq_nr,
            version := satAdd va.version 1 } [sde] ies).mapError
          persistenceErrorOfDynamo = Except.ok st2 := hp
      cases hu : update_snapshot st
          { aggregate_type := A.TYPE, aggregate_id := A.idOf va.aggregate,
            aggregate := payload, seq_nr := va.seq_nr,
            version := satAdd va.version 1 } [sde] ies with
      | error err =>
          rw [hu] at hp2
          simp only [Except.mapError] at hp2
          cases hp2
      | ok st3 =>
          rw [hu] at hp2
          simp only [Except.mapError] at hp2
          have hst3 : st3 = st2 := Except.ok.inj hp2
          subst hst3
          simp only [update_snapshot, build_all_single, List.cons_append] at hu
          rcases commit_transactions_ok_inv _ _ _ hu with ⟨hconds, hfold⟩
          refine ⟨{ aid := A.idOf va.aggregate, seq_nr := sde.seq_nr,
                    version := satAdd va.version 1, aggregate_type := A.TYPE,
                    payload := payload }, ?_, ?_, rfl, hrt⟩
          · rw [hfold, List.foldl_cons, List.foldl_append, List.foldl_cons,
              List.foldl_nil]
            exact List.getLast?_concat _
          · rw [hsde]

/-- One full load-then-commit round of the repository against the store, the
committed event carrying the value k (the caller flow: load_aggregate, then
commit of the event produced by handle). -/
def driveCommit (st : DynamoState) (k : Nat) : Except PersistenceError DynamoState :=
  match load_aggregate listAgg listSerde natSerde st "A" with
  | Except.error e => Except.error e
  | Except.ok va => repoCommit listAgg listSerde natSerde natSerde 10 va (envelopeFrom k) st

/-- n successive load-commit rounds from the empty store, the k-th round
committing the event value k, with snapshot interval 10. -/
def runCommits : Nat → Except PersistenceError DynamoState
  | 0 => Except.ok DynamoState.empty
  | k + 1 =>
      match runCommits k with
      | Except.error e => Except.error e
      | Except.ok st => driveCommit st (k + 1)

/-- C3 counterexample: after ten commits with interval 10 the stored snapshot
row carries seq_nr 10, but its payload deserializes to the state reflecting
only the events 1 through 9; applying all journal events with seq_nr up to
and including 10 from the initial state yields a different state. -/
theorem C3_counterexample :
    (runCommits 10).map (fun st => st.snapshots.map (fun r => (r.seq_nr, r.payload))) =
      Except.ok [(10, [1, 2, 3, 4, 5, 6, 7, 8, 9])] ∧
    listSerde.deserialize [1, 2, 3, 4, 5, 6, 7, 8, 9] =
      Except.ok [1, 2, 3, 4, 5, 6, 7, 8, 9] ∧
    (runCommits 10).map (fun st =>
        (decodedEvents natSerde ((stream_events st "A" (SequenceSelect.From 1)).filter
            (fun ev => ev.seq_nr ≤ 10))).map
          (fun ds => ds.foldl listAgg.apply (listAgg.init "A"))) =
      Except.ok (Except.ok [1, 2, 3, 4, 5, 6, 7, 8, 9, 10]) ∧
    ([1, 2, 3, 4, 5, 6, 7, 8, 9] : List Nat) ≠ [1, 2, 3, 4, 5, 6, 7, 8, 9, 10] := by
  refine ⟨by decide, by decide, by decide, by decide⟩

/-- Witness for the hypotheses of the amended C3 theorem at the same commit
the C4 witness performs. -/
theorem C3_snapshot_witness :
    ∃ row : SnapshotRow,
      c4State.snapshots.getLast? = some row ∧
      row.seq_nr = satAdd 9 1 ∧
      row.payload = [1, 2] ∧
      listSerde.deserialize row.payload = Except.ok [1, 2] :=
  C3_snapshot_stores_next_seq_with_prior_state listAgg listSerde natSerde natSerde 10
    ⟨[1, 2], 0, 9⟩ (envelopeFrom 5) DynamoState.empty c4State [1, 2]
    (by decide) (by decide) (by decide) (by decide)
